import Mathlib

/-!
# Verification of the WRPF UK qualifying-totals pipeline

A shallow embedding of the data-normalization and filter-resolution core of
`run.py` (a single-file Streamlit app showing powerlifting qualifying totals),
together with theorems settling the specification claims about it.

Conventions of the embedding:
* pandas `DataFrame`s of the tidy table are `List Row` (order- and
  duplicate-preserving, exactly like boolean-mask filtering in pandas);
* Python strings are Lean `String`s; the app only manipulates ASCII data,
  for which `Char.toLower`-based lowering agrees with Python `str.lower`;
* `st.session_state` (a string-keyed dictionary read with `.get`) is a
  record of `Option` fields, `none` meaning "key absent";
* Python `float(...)` applied to the decimal literals occurring in
  weight-class labels is modelled exactly by a rational-valued parser
  (`PFloat` keeps the `inf`/`nan` special cases of the float domain).
-/

namespace Qualifying

/-- Python `str.strip()` (also pandas `.str.strip()`): remove leading and
trailing whitespace. Modelled on the character list of the string. -/
def pyStrip (s : String) : String :=
  ⟨((s.data.dropWhile Char.isWhitespace).reverse.dropWhile Char.isWhitespace).reverse⟩

/-- Python `str.lower()` on the ASCII data handled by the app. -/
def pyLower (s : String) : String :=
  ⟨s.data.map Char.toLower⟩

/-- One row of the tidy (long-format) table produced by `load_qualifying_table`.
`qualifyingTotalKg` is `none` when the originating cell was null (pandas `NaN`);
the value itself is opaque to the pipeline, so it is kept as a string. -/
structure Row where
  ageCategory : String
  sex : String
  event : String
  tested : String
  equipment : String
  weightClassKg : String
  qualifyingTotalKg : Option String
deriving DecidableEq

/-- The six `st.session_state` entries read by `filter_with_controls`,
already defaulted the way the code reads them: `st.session_state.get(k) or []`
for the five multiselects and `st.session_state.get("tested_state", "All")`
for the selectbox. -/
structure FilterState where
  gender : List String
  ages : List String
  wcsMale : List String
  wcsFemale : List String
  equipment : List String
  testedState : String
deriving DecidableEq

/-- The raw `st.session_state` dictionary restricted to the six filter keys;
`none` models an absent key. -/
structure SessionState where
  gender : Option (List String)
  ages : Option (List String)
  wcsMale : Option (List String)
  wcsFemale : Option (List String)
  equipment : Option (List String)
  testedState : Option String
deriving DecidableEq

/-- The session with none of the six filter keys present. -/
def emptySession : SessionState :=
  ⟨none, none, none, none, none, none⟩

/-- `reset_filters` (run.py:57-60): `del st.session_state[key]` for each of the
six filter keys, when present; afterwards every key is absent. -/
def reset_filters (s : SessionState) : SessionState :=
  { s with gender := none, ages := none, wcsMale := none, wcsFemale := none,
           equipment := none, testedState := none }

/-- How `filter_with_controls` (run.py:64-69) reads the session dictionary:
`.get(key) or []` for the multiselects, `.get("tested_state", "All")`. -/
def stateOfSession (s : SessionState) : FilterState :=
  { gender := s.gender.getD [], ages := s.ages.getD [],
    wcsMale := s.wcsMale.getD [], wcsFemale := s.wcsFemale.getD [],
    equipment := s.equipment.getD [], testedState := s.testedState.getD "All" }

/-- The all-empty / all-default filter state. -/
def defaultFilterState : FilterState :=
  ⟨[], [], [], [], [], "All"⟩

/-- run.py:73-74 — `if gender: out = out[out["Sex"].isin(gender)]`. -/
def applySexStage (fs : FilterState) (out : List Row) : List Row :=
  if fs.gender.isEmpty then out
  else out.filter (fun r => fs.gender.contains r.sex)

/-- run.py:76-77 — `if ages: out = out[out["Age Category"].isin(ages)]`. -/
def applyAgeStage (fs : FilterState) (out : List Row) : List Row :=
  if fs.ages.isEmpty then out
  else out.filter (fun r => fs.ages.contains r.ageCategory)

/-- run.py:79-88 — the sex-partitioned weight-class step: exact list equality
with `["Female"]` / `["Male"]` selects the per-sex set, every other gender
selection uses `combined = list(set(wcs_male) | set(wcs_female))` (modelled by
`List.union`, which agrees with the Python set union on emptiness and
membership, the only two things `if combined` / `.isin(combined)` use). -/
def applyWcStage (fs : FilterState) (out : List Row) : List Row :=
  if fs.gender = ["Female"] then
    if fs.wcsFemale.isEmpty then out
    else out.filter (fun r => fs.wcsFemale.contains r.weightClassKg)
  else if fs.gender = ["Male"] then
    if fs.wcsMale.isEmpty then out
    else out.filter (fun r => fs.wcsMale.contains r.weightClassKg)
  else
    let combined := fs.wcsMale ∪ fs.wcsFemale
    if combined.isEmpty then out
    else out.filter (fun r => combined.contains r.weightClassKg)

/-- run.py:90-91 — `if equipment: out = out[out["Equipment"].isin(equipment)]`. -/
def applyEquipmentStage (fs : FilterState) (out : List Row) : List Row :=
  if fs.equipment.isEmpty then out
  else out.filter (fun r => fs.equipment.contains r.equipment)

/-- run.py:93-96 — the tested-state step: `"Tested"` and `"Untested"` compare
the lowercased column, any other selector value falls through the `if`/`elif`
with no filtering. -/
def applyTestedStage (fs : FilterState) (out : List Row) : List Row :=
  if fs.testedState = "Tested" then out.filter (fun r => pyLower r.tested == "tested")
  else if fs.testedState = "Untested" then out.filter (fun r => pyLower r.tested == "untested")
  else out

/-- `filter_with_controls` (run.py:63-98): the five stages applied in program
order to a copy of the input frame. -/
def filter_with_controls (fs : FilterState) (df : List Row) : List Row :=
  applyTestedStage fs (applyEquipmentStage fs (applyWcStage fs (applyAgeStage fs (applySexStage fs df))))

/-- One row of a wide sheet: the five fixed categorical columns plus the
weight-class cells, positionally aligned with the sheet's weight-class
column headers; `none` is a null (NaN) cell. -/
structure WideRow where
  ageCategory : String
  sex : String
  event : String
  tested : String
  equipment : String
  cells : List (Option String)
deriving DecidableEq

/-- One sheet of the workbook (or the single flat CSV table): its
weight-class column headers (the columns other than the five fixed ones,
run.py:26-27) and its rows. -/
structure Sheet where
  weightCols : List String
  rows : List WideRow
deriving DecidableEq

/-- Keep the first occurrence of each string, dropping later duplicates and
anything in `seen` (order of first appearance, as `pd.concat` unions the
column sets of the sheets). -/
def dedupKeepFirst (seen : List String) : List String → List String
  | [] => []
  | c :: cs => if c ∈ seen then dedupKeepFirst seen cs else c :: dedupKeepFirst (c :: seen) cs

/-- The weight-class columns of the concatenated wide table (run.py:20):
all sheets' columns, first occurrence kept. -/
def allWeightCols (wb : List Sheet) : List String :=
  dedupKeepFirst [] (wb.flatMap Sheet.weightCols)

/-- The cell of wide row `r` (from sheet `s`) in column `c` of the
concatenated table: the positional cell if `c` is a column of `s`, and null
otherwise (`pd.concat` fills columns absent from a sheet with NaN). -/
def cellAt (s : Sheet) (r : WideRow) (c : String) : Option String :=
  ((s.weightCols.zip r.cells).lookup c).join

/-- All wide rows of the workbook in concatenation order (run.py:19-20). -/
def allWideRows (wb : List Sheet) : List WideRow :=
  wb.flatMap Sheet.rows

/-- `wide.melt(id_vars=..., value_vars=weight_cols, ...)` (run.py:29-34) on
the concatenated table: one long row per (weight column, wide row) pair,
in pandas melt order (column-major over the stacked rows). -/
def meltWorkbook (wb : List Sheet) : List Row :=
  (allWeightCols wb).flatMap fun c =>
    wb.flatMap fun s =>
      s.rows.map fun r =>
        { ageCategory := r.ageCategory, sex := r.sex, event := r.event,
          tested := r.tested, equipment := r.equipment,
          weightClassKg := c, qualifyingTotalKg := cellAt s r c }

/-- run.py:36-37 — `astype(str).str.strip()` on the six categorical columns. -/
def trimRow (r : Row) : Row :=
  { ageCategory := pyStrip r.ageCategory, sex := pyStrip r.sex,
    event := pyStrip r.event, tested := pyStrip r.tested,
    equipment := pyStrip r.equipment, weightClassKg := pyStrip r.weightClassKg,
    qualifyingTotalKg := r.qualifyingTotalKg }

/-- run.py:40-44 — `tested_map` lookup on the lowercased (already trimmed)
value, falling back to the value itself when the lookup misses. -/
def canonTested (s : String) : String :=
  let l := pyLower s
  if l = "yes" ∨ l = "true" ∨ l = "tested" then "Tested"
  else if l = "no" ∨ l = "false" ∨ l = "untested" then "Untested"
  else s

/-- The `Tested` canonicalization exactly as the specification words it:
trim, then lowercase-compare against the synonym table, keeping the trimmed
value verbatim (original case) on a miss. Stated separately from the code's
`canonTested` so the two can be compared. -/
def specTestedMap (raw : String) : String :=
  let t := pyStrip raw
  let l := pyLower t
  if l = "yes" ∨ l = "true" ∨ l = "tested" then "Tested"
  else if l = "no" ∨ l = "false" ∨ l = "untested" then "Untested"
  else t

/-- The reshape/clean pipeline of `load_qualifying_table` (run.py:26-46):
melt, trim the categorical columns, drop rows with a null total, then
canonicalize `Tested`. -/
def loadTidyWorkbook (wb : List Sheet) : List Row :=
  ((((meltWorkbook wb).map trimRow).filter fun r => r.qualifyingTotalKg.isSome).map
    fun r => { r with tested := canonTested r.tested })

/-- The argument of `load_qualifying_table`: either a path/identifier string
or a file-like object carrying a `.name` (run.py:10-15). -/
inductive SourceObj
  | pathStr (s : String)
  | fileLike (name : String)
deriving DecidableEq

/-- run.py:11-15 — the lowercased name used for extension tests. -/
def sourceName : SourceObj → String
  | .pathStr s => pyLower s
  | .fileLike n => pyLower n

/-- Python `str.endswith` on the character lists. -/
def pyEndsWith (s suf : String) : Bool :=
  suf.data.isSuffixOf s.data

/-- run.py:17 — `isinstance(file_path_or_obj, str) and os.path.exists(...)`,
with the filesystem passed in as an oracle `ex`. -/
def existsAsPath (ex : String → Bool) : SourceObj → Bool
  | .pathStr s => ex s
  | .fileLike _ => false

/-- The format dispatch of `load_qualifying_table` (run.py:17-24), with the
filesystem (`os.path.exists`) and the spreadsheet/CSV readers passed in as
oracles: Excel extension or an existing string path reads a multi-sheet
workbook whose sheets are all concatenated; otherwise a `.csv` name reads a
single flat table; otherwise the `ValueError` message is surfaced verbatim. -/
def load_qualifying_table (ex : String → Bool) (workbookOf : SourceObj → List Sheet)
    (csvOf : SourceObj → Sheet) (src : SourceObj) : Except String (List Row) :=
  let name := sourceName src
  if pyEndsWith name ".xlsx" || pyEndsWith name ".xls" || existsAsPath ex src then
    Except.ok (loadTidyWorkbook (workbookOf src))
  else if pyEndsWith name ".csv" then
    Except.ok (loadTidyWorkbook [csvOf src])
  else
    Except.error "Unsupported file type or file not found."

/-- A one-row workbook sheet with some trimmable whitespace, used to
instantiate the ingestion theorems on concrete data. -/
def sheetW : Sheet :=
  ⟨["90"], [⟨" 24-39 ", "Male", "SBD", " Yes ", "Raw", [some "500"]⟩]⟩

/-- The tidy row that ingesting `sheetW` produces. -/
def rowW : Row :=
  ⟨"24-39", "Male", "SBD", "Tested", "Raw", "90", some "500"⟩

/-- A second sheet with different weight-class columns and one null cell. -/
def sheetV : Sheet :=
  ⟨["63", "72"], [⟨"24-39", "Female", "SBD", "No", "Raw", [some "300", none]⟩]⟩

/-- A filter state selecting only age categories. -/
def onlyAges (a : List String) : FilterState :=
  ⟨[], a, [], [], [], "All"⟩

/-- A filter state selecting only equipment. -/
def onlyEquipment (e : List String) : FilterState :=
  ⟨[], [], [], [], e, "All"⟩

/-- A filter state selecting only a tested-state. -/
def onlyTested (t : String) : FilterState :=
  ⟨[], [], [], [], [], t⟩

/-- Intersection of row tables: the rows of `l₁`, in order, that also
occur in `l₂`. -/
def interRows (l₁ l₂ : List Row) : List Row :=
  l₁.filter fun r => l₂.contains r

/-- Concrete rows for instantiating the filter theorems. -/
def rowM90 : Row :=
  ⟨"24-39", "Male", "SBD", "Tested", "Raw", "90", some "500"⟩

def rowF63 : Row :=
  ⟨"24-39", "Female", "SBD", "Untested", "Raw", "63", some "300"⟩

def rowF72 : Row :=
  ⟨"24-39", "Female", "SBD", "Untested", "Raw", "72", some "320"⟩

/-- No sexes selected, male weight-class selection {"90"}, female selection
{"63"}, everything else default. -/
def fsU : FilterState :=
  ⟨[], [], ["90"], ["63"], [], "All"⟩

/-- A state whose tested-state selector is not one of All/Tested/Untested. -/
def fsBogusTested : FilterState :=
  ⟨[], [], [], [], [], "Both"⟩

/-- A state whose selected-sexes set holds an unknown sex string. -/
def fsAlienSex : FilterState :=
  ⟨["Alien"], [], [], [], [], "All"⟩

/-- The domain of Python `float`: finite values (every decimal literal the
parser accepts denotes an exact rational, which is how the finite case is
represented here), the two infinities, and `nan`. -/
inductive PFloat
  | fin (q : ℚ)
  | pinf
  | ninf
  | nan
deriving DecidableEq

/-- Continuation of a digit run in a Python numeric string: digits with
single underscores allowed only between digits. -/
def digitsAfter : List Char → Bool
  | [] => true
  | '_' :: [] => false
  | '_' :: c :: rest => c.isDigit && digitsAfter rest
  | c :: rest => c.isDigit && digitsAfter rest

/-- A non-empty digit run (underscores only between digits), as accepted by
Python `float`. -/
def isDigitRun : List Char → Bool
  | [] => false
  | c :: rest => c.isDigit && digitsAfter rest

/-- Numeric value of a decimal digit character. -/
def digitVal (c : Char) : ℕ :=
  c.toNat - 48

/-- Value of a digit run, underscores skipped. -/
def natOfDigits (l : List Char) : ℕ :=
  (l.filter fun c => c != '_').foldl (fun acc c => 10 * acc + digitVal c) 0

/-- Number of actual digits in a run (underscores skipped). -/
def countDigits (l : List Char) : ℕ :=
  (l.filter fun c => c != '_').length

/-- Mantissa of a Python float literal, split at an optional decimal point:
returns the digit string read as a natural number together with the number of
fractional digits. -/
def parseMantissa (l : List Char) : Option (ℕ × ℕ) :=
  let ip := l.takeWhile fun c => c != '.'
  match l.dropWhile fun c => c != '.' with
  | [] => if isDigitRun ip then some (natOfDigits ip, 0) else none
  | _ :: fp =>
    if fp.contains '.' then none
    else if (ip.isEmpty || isDigitRun ip) && (fp.isEmpty || isDigitRun fp)
        && !(ip.isEmpty && fp.isEmpty) then
      some (natOfDigits (ip ++ fp), countDigits fp)
    else none

/-- The exponent of a Python float literal: optional sign, then digits. -/
def parseExpDigits (l : List Char) : Option ℤ :=
  match l with
  | '+' :: rest => if isDigitRun rest then some (natOfDigits rest : ℤ) else none
  | '-' :: rest => if isDigitRun rest then some (-(natOfDigits rest : ℤ)) else none
  | _ => if isDigitRun l then some ((natOfDigits l : ℤ)) else none

/-- A finite Python float literal after the sign: mantissa with optional
`e`/`E` exponent. The exact rational value is built with `mkRat` over
powers of ten. -/
def parseDecimal (l : List Char) : Option ℚ :=
  let mant := l.takeWhile fun c => c != 'e' && c != 'E'
  match l.dropWhile fun c => c != 'e' && c != 'E' with
  | [] => (parseMantissa mant).map fun mv => mkRat (mv.1 : ℤ) (10 ^ mv.2)
  | _ :: expPart =>
    match parseMantissa mant, parseExpDigits expPart with
    | some mv, some e =>
      let sc : ℤ := e - (mv.2 : ℤ)
      some (if 0 ≤ sc then mkRat ((mv.1 : ℤ) * ((10 ^ sc.toNat : ℕ) : ℤ)) 1
            else mkRat (mv.1 : ℤ) (10 ^ (-sc).toNat))
    | _, _ => none

/-- ASCII lowering of a character list. -/
def asciiLowerList (l : List Char) : List Char :=
  l.map Char.toLower

/-- Python `float(s)` — modelled for string input: surrounding whitespace
stripped, optional sign, then `inf`/`infinity`/`nan` (case-insensitive) or a
decimal literal; `none` models the `ValueError` that `numeric_sort_key_wc`
catches. -/
def pyFloat? (s : String) : Option PFloat :=
  let t := ((s.data.dropWhile Char.isWhitespace).reverse.dropWhile Char.isWhitespace).reverse
  match t with
  | [] => none
  | _ =>
    let sb : Bool × List Char :=
      match t with
      | '+' :: r => (false, r)
      | '-' :: r => (true, r)
      | r => (false, r)
    let low := asciiLowerList sb.2
    if low = "inf".data ∨ low = "infinity".data then
      some (if sb.1 then PFloat.ninf else PFloat.pinf)
    else if low = "nan".data then
      some PFloat.nan
    else
      (parseDecimal sb.2).map fun q => PFloat.fin (if sb.1 then -q else q)

/-- run.py:52 — `s.replace("+", "")`: every plus sign removed. -/
def removePlus (s : String) : String :=
  ⟨s.data.filter fun c => c != '+'⟩

/-- `numeric_sort_key_wc` (run.py:49-54): `(float(s.replace("+","")), s)` when
the conversion succeeds, `(float("inf"), s)` when it raises `ValueError`. -/
def numeric_sort_key_wc (x : String) : PFloat × String :=
  match pyFloat? (removePlus x) with
  | some p => (p, x)
  | none => (PFloat.pinf, x)

/-- The sort key exactly as the claim words it: strip one TRAILING plus if
present, then parse; `(+inf, s)` when unparseable. Stated separately so it
can be compared with the code's `numeric_sort_key_wc`. -/
def claimKeyWc (x : String) : PFloat × String :=
  let t := if pyEndsWith x "+" then String.mk x.data.dropLast else x
  match pyFloat? t with
  | some p => (p, x)
  | none => (PFloat.pinf, x)

/-- Lexicographic `<` on character lists by code point. -/
def charListLT : List Char → List Char → Bool
  | [], [] => false
  | [], _ :: _ => true
  | _ :: _, [] => false
  | a :: as, b :: bs => if a < b then true else if a = b then charListLT as bs else false

/-- Python `<` on strings: lexicographic by code point. -/
def pyStrLT (a b : String) : Bool :=
  charListLT a.data b.data

/-- Python `<` on floats (`nan` incomparable, as in IEEE). -/
def pfLT : PFloat → PFloat → Bool
  | PFloat.nan, _ => false
  | _, PFloat.nan => false
  | PFloat.ninf, PFloat.ninf => false
  | PFloat.ninf, _ => true
  | _, PFloat.ninf => false
  | PFloat.pinf, _ => false
  | PFloat.fin _, PFloat.pinf => true
  | PFloat.fin a, PFloat.fin b => decide (a < b)

/-- Python `==` on floats (`nan` equal to nothing). -/
def pfEQ : PFloat → PFloat → Bool
  | PFloat.fin a, PFloat.fin b => decide (a = b)
  | PFloat.pinf, PFloat.pinf => true
  | PFloat.ninf, PFloat.ninf => true
  | _, _ => false

/-- Python tuple `<` on `(float, str)` sort keys. -/
def keyLT (a b : PFloat × String) : Bool :=
  pfLT a.1 b.1 || (pfEQ a.1 b.1 && pyStrLT a.2 b.2)

/-- `a` may stay before `b` in a stable ascending sort by the weight-class
key: `key b` is not strictly smaller than `key a`. -/
def wcLE (a b : String) : Bool :=
  !(keyLT (numeric_sort_key_wc b) (numeric_sort_key_wc a))

/-- `sorted(labels, key=numeric_sort_key_wc)` (run.py:219-220): the stable
ascending sort by the key (insertion sort computes the same list as any
stable sort of a total preorder, which is what Python `sorted` is). -/
def sortWC (labels : List String) : List String :=
  List.insertionSort (fun a b => wcLE a b = true) labels

/-- The fixed six-column sort key of `show_table` (run.py:117). -/
def sortKeyOf (r : Row) : List String :=
  [r.sex, r.ageCategory, r.event, r.tested, r.equipment, r.weightClassKg]

/-- Lexicographic `≤` on string lists (how pandas orders rows by a list of
string columns, shorter prefix first). -/
def strListLE : List String → List String → Bool
  | [], _ => true
  | _ :: _, [] => false
  | a :: as, b :: bs => if pyStrLT a b then true else if a = b then strListLE as bs else false

/-- Row order of `show_table`: lexicographic on the six sort keys. -/
def rowLE (a b : Row) : Bool :=
  strListLE (sortKeyOf a) (sortKeyOf b)

/-- `sort_values(by=[Sex, Age Category, Event, Tested, Equipment,
WeightClassKg], kind="mergesort")` (run.py:115-118): a stable ascending sort,
modelled by insertion sort (the same list as any stable sort of this total
preorder). -/
def sort_values (df : List Row) : List Row :=
  List.insertionSort (fun a b => rowLE a b = true) df

/-- run.py:112-114 — the exported column order. -/
def exportHeader : List String :=
  ["Sex", "Age Category", "Event", "Tested", "Equipment", "WeightClassKg", "QualifyingTotalKg"]

/-- One exported line: the row projected to the seven display columns in
display order. -/
def exportRow (r : Row) : List String :=
  [r.sex, r.ageCategory, r.event, r.tested, r.equipment, r.weightClassKg,
    r.qualifyingTotalKg.getD ""]

/-- `show_table`'s view/CSV content (run.py:112-122): select the display
columns, stable-sort by the six keys, header line first. -/
def show_table_csv (df : List Row) : List (List String) :=
  exportHeader :: (sort_values df).map exportRow

/-- run.py:265-268 — the Full Power tab: event subset, filter resolution,
sorted view. -/
def tab_sbd (data : List Row) (fs : FilterState) : List Row :=
  sort_values (filter_with_controls fs (data.filter fun r => r.event == "SBD"))

/-- run.py:270-273 — the Single Lifts tab: `Event.isin(["B","D"])`, filter
resolution, sorted view. -/
def tab_singles (data : List Row) (fs : FilterState) : List Row :=
  sort_values (filter_with_controls fs (data.filter fun r => r.event == "B" || r.event == "D"))

lemma applySexStage_sublist (fs : FilterState) (out : List Row) :
    (applySexStage fs out).Sublist out := by
  unfold applySexStage
  split
  · exact List.Sublist.refl _
  · exact List.filter_sublist _

lemma applyAgeStage_sublist (fs : FilterState) (out : List Row) :
    (applyAgeStage fs out).Sublist out := by
  unfold applyAgeStage
  split
  · exact List.Sublist.refl _
  · exact List.filter_sublist _

lemma applyWcStage_sublist (fs : FilterState) (out : List Row) :
    (applyWcStage fs out).Sublist out := by
  unfold applyWcStage
  split
  · split
    · exact List.Sublist.refl _
    · exact List.filter_sublist _
  · split
    · split
      · exact List.Sublist.refl _
      · exact List.filter_sublist _
    · dsimp only
      split
      · exact List.Sublist.refl _
      · exact List.filter_sublist _

lemma applyEquipmentStage_sublist (fs : FilterState) (out : List Row) :
    (applyEquipmentStage fs out).Sublist out := by
  unfold applyEquipmentStage
  split
  · exact List.Sublist.refl _
  · exact List.filter_sublist _

lemma applyTestedStage_sublist (fs : FilterState) (out : List Row) :
    (applyTestedStage fs out).Sublist out := by
  unfold applyTestedStage
  split
  · exact List.filter_sublist _
  · split
    · exact List.filter_sublist _
    · exact List.Sublist.refl _

/-- C8: the reset action clears every FilterState field (selected sexes, age
categories, male weight classes, female weight classes, equipment,
tested-state) to its empty/default value, it is idempotent, and resetting an
already-empty state is a no-op. -/
theorem C8_reset_clears_and_idempotent (s : SessionState) :
    reset_filters s = emptySession
    ∧ reset_filters (reset_filters s) = reset_filters s
    ∧ reset_filters emptySession = emptySession
    ∧ stateOfSession (reset_filters s) = defaultFilterState :=
  ⟨rfl, rfl, rfl, rfl⟩

/-- C10: `filter_with_controls` never mutates its input (the embedding is a
pure function of a copied frame, as is the code, which only ever rebinds the
local `out` to boolean-mask selections of `df.copy()`); the returned table is
a sublist of the input: every output row occurs in the input with identical
field values and output rows keep the input's relative order. -/
theorem C10_filter_no_mutation (fs : FilterState) (df : List Row) :
    (filter_with_controls fs df).Sublist df :=
  ((((applyTestedStage_sublist fs _).trans
      (applyEquipmentStage_sublist fs _)).trans
      (applyWcStage_sublist fs _)).trans
      (applyAgeStage_sublist fs _)).trans
    (applySexStage_sublist fs df)

/-- C2: every `Tested` value in the tidy table is the image of some raw wide
row's `Tested` value under trim-then-synonym-lookup, and that composition is
exactly the mapping the specification describes (`specTestedMap`): trimmed
lowercase in {yes,true,tested} gives "Tested", in {no,false,untested} gives
"Untested", anything else is kept verbatim as its trimmed form. -/
theorem C2_tested_canonicalization (wb : List Sheet) :
    (∀ row ∈ loadTidyWorkbook wb, ∃ w ∈ allWideRows wb, row.tested = canonTested (pyStrip w.tested))
    ∧ ∀ raw : String, canonTested (pyStrip raw) = specTestedMap raw := by
  constructor
  · intro row hrow
    unfold loadTidyWorkbook at hrow
    obtain ⟨r1, hr1, hrow⟩ := List.mem_map.mp hrow
    have hr1' : r1 ∈ (meltWorkbook wb).map trimRow := (List.mem_filter.mp hr1).1
    obtain ⟨m, hm, hr1eq⟩ := List.mem_map.mp hr1'
    unfold meltWorkbook at hm
    obtain ⟨c, _, hm⟩ := List.mem_flatMap.mp hm
    obtain ⟨s, hs, hm⟩ := List.mem_flatMap.mp hm
    obtain ⟨w, hw, hmeq⟩ := List.mem_map.mp hm
    refine ⟨w, List.mem_flatMap.mpr ⟨s, hs, hw⟩, ?_⟩
    subst hrow
    subst hr1eq
    subst hmeq
    rfl
  · intro raw
    rfl

/-- Witness for C2 on the concrete one-sheet workbook `[sheetW]`. -/
theorem C2_tested_canonicalization_witness :
    rowW ∈ loadTidyWorkbook [sheetW]
    ∧ ∃ w ∈ allWideRows [sheetW], rowW.tested = canonTested (pyStrip w.tested) :=
  ⟨by decide, (C2_tested_canonicalization [sheetW]).1 rowW (by decide)⟩

/-- C6: format dispatch precedence of `load_qualifying_table` — an Excel
extension on the lowercased name, or a string identifier for which the
filesystem oracle reports an existing path, reads a workbook with all sheets
concatenated; otherwise a `.csv` name reads a single flat table; otherwise
the call fails with the unsupported-format error surfaced verbatim. -/
theorem C6_format_dispatch (ex : String → Bool) (workbookOf : SourceObj → List Sheet)
    (csvOf : SourceObj → Sheet) (src : SourceObj) :
    ((pyEndsWith (sourceName src) ".xlsx" = true ∨ pyEndsWith (sourceName src) ".xls" = true
        ∨ ∃ s, src = SourceObj.pathStr s ∧ ex s = true) →
      load_qualifying_table ex workbookOf csvOf src
        = Except.ok (loadTidyWorkbook (workbookOf src)))
    ∧ (¬ (pyEndsWith (sourceName src) ".xlsx" = true ∨ pyEndsWith (sourceName src) ".xls" = true
        ∨ ∃ s, src = SourceObj.pathStr s ∧ ex s = true) →
      pyEndsWith (sourceName src) ".csv" = true →
      load_qualifying_table ex workbookOf csvOf src
        = Except.ok (loadTidyWorkbook [csvOf src]))
    ∧ (¬ (pyEndsWith (sourceName src) ".xlsx" = true ∨ pyEndsWith (sourceName src) ".xls" = true
        ∨ ∃ s, src = SourceObj.pathStr s ∧ ex s = true) →
      pyEndsWith (sourceName src) ".csv" = false →
      load_qualifying_table ex workbookOf csvOf src
        = Except.error "Unsupported file type or file not found.") := by
  have hmatch : (existsAsPath ex src = true)
      ↔ ∃ s, src = SourceObj.pathStr s ∧ ex s = true := by
    cases src with
    | pathStr p => simp [existsAsPath]
    | fileLike n => simp [existsAsPath]
  have hcond : ((pyEndsWith (sourceName src) ".xlsx" || pyEndsWith (sourceName src) ".xls" ||
      existsAsPath ex src) = true)
      ↔ (pyEndsWith (sourceName src) ".xlsx" = true ∨ pyEndsWith (sourceName src) ".xls" = true
        ∨ ∃ s, src = SourceObj.pathStr s ∧ ex s = true) := by
    simp only [Bool.or_eq_true, hmatch, or_assoc]
  refine ⟨?_, ?_, ?_⟩
  · intro h
    simp only [load_qualifying_table]
    rw [if_pos (hcond.mpr h)]
  · intro h hcsv
    simp only [load_qualifying_table]
    rw [if_neg (fun hc => h (hcond.mp hc)), if_pos hcsv]
  · intro h hcsv
    simp only [load_qualifying_table]
    rw [if_neg (fun hc => h (hcond.mp hc)), if_neg (by simp [hcsv])]

/-- Witness for C6 at a concrete file-like source named `FP.xlsx`. -/
theorem C6_format_dispatch_witness :
    (pyEndsWith (sourceName (SourceObj.fileLike "FP.xlsx")) ".xlsx" = true
      ∨ pyEndsWith (sourceName (SourceObj.fileLike "FP.xlsx")) ".xls" = true
      ∨ ∃ s, SourceObj.fileLike "FP.xlsx" = SourceObj.pathStr s ∧ (fun _ => false) s = true)
    ∧ load_qualifying_table (fun _ => false) (fun _ => [sheetW]) (fun _ => sheetW)
        (SourceObj.fileLike "FP.xlsx")
        = Except.ok (loadTidyWorkbook [sheetW]) :=
  ⟨Or.inl (by decide),
    (C6_format_dispatch (fun _ => false) (fun _ => [sheetW]) (fun _ => sheetW)
      (SourceObj.fileLike "FP.xlsx")).1 (Or.inl (by decide))⟩

lemma applySexStage_skip (fs : FilterState) (h : fs.gender = []) (out : List Row) :
    applySexStage fs out = out := by
  simp [applySexStage, h]

lemma applyAgeStage_skip (fs : FilterState) (h : fs.ages = []) (out : List Row) :
    applyAgeStage fs out = out := by
  simp [applyAgeStage, h]

lemma applyAgeStage_filter (fs : FilterState) (h : fs.ages ≠ []) (out : List Row) :
    applyAgeStage fs out = out.filter fun r => fs.ages.contains r.ageCategory := by
  unfold applyAgeStage
  rw [if_neg (by simp [h])]

lemma applyWcStage_skip (fs : FilterState) (hg : fs.gender = []) (hm : fs.wcsMale = [])
    (hf : fs.wcsFemale = []) (out : List Row) :
    applyWcStage fs out = out := by
  simp [applyWcStage, hg, hm, hf]

lemma applyWcStage_union (fs : FilterState) (hF : fs.gender ≠ ["Female"])
    (hM : fs.gender ≠ ["Male"]) (hne : fs.wcsMale ∪ fs.wcsFemale ≠ []) (out : List Row) :
    applyWcStage fs out
      = out.filter fun r => (fs.wcsMale ∪ fs.wcsFemale).contains r.weightClassKg := by
  unfold applyWcStage
  rw [if_neg hF, if_neg hM]
  dsimp only
  rw [if_neg (by simp [hne])]

lemma applyEquipmentStage_skip (fs : FilterState) (h : fs.equipment = []) (out : List Row) :
    applyEquipmentStage fs out = out := by
  simp [applyEquipmentStage, h]

lemma applyEquipmentStage_filter (fs : FilterState) (h : fs.equipment ≠ []) (out : List Row) :
    applyEquipmentStage fs out = out.filter fun r => fs.equipment.contains r.equipment := by
  unfold applyEquipmentStage
  rw [if_neg (by simp [h])]

lemma applyTestedStage_skip (fs : FilterState) (h1 : fs.testedState ≠ "Tested")
    (h2 : fs.testedState ≠ "Untested") (out : List Row) :
    applyTestedStage fs out = out := by
  simp [applyTestedStage, h1, h2]

lemma applyTestedStage_tested (fs : FilterState) (h : fs.testedState = "Tested") (out : List Row) :
    applyTestedStage fs out = out.filter fun r => pyLower r.tested == "tested" := by
  simp [applyTestedStage, h]

lemma applyTestedStage_untested (fs : FilterState) (h : fs.testedState = "Untested")
    (out : List Row) :
    applyTestedStage fs out = out.filter fun r => pyLower r.tested == "untested" := by
  simp [applyTestedStage, h]

lemma all_ne_tested : ("All" : String) ≠ "Tested" := by decide

lemma all_ne_untested : ("All" : String) ≠ "Untested" := by decide

lemma interRows_filter_right (l m : List Row) (q : Row → Bool) (h : ∀ r ∈ m, r ∈ l) :
    interRows m (l.filter q) = m.filter q := by
  unfold interRows
  apply List.filter_congr
  intro r hr
  rw [Bool.eq_iff_iff]
  simp only [List.contains, List.elem_eq_mem, decide_eq_true_eq, List.mem_filter]
  exact ⟨fun hh => hh.2, fun hq => ⟨h r hr, hq⟩⟩

/-- C1: when the selected-sexes list is empty or equals {Male, Female} as a
set, `filter_with_controls` applies the union of the male and female
weight-class selections to `WeightClassKg` (regardless of each row's `Sex`)
whenever that union is non-empty; in particular, with no sexes selected,
male selection {"90"} and female selection {"63"} and all other dimensions
default, the result is exactly the input rows whose `WeightClassKg` is
"90" or "63". -/
theorem C1_union_weight_class_policy :
    (∀ (df : List Row) (fs : FilterState),
        (fs.gender = [] ∨ ∀ x, x ∈ fs.gender ↔ x ∈ (["Male", "Female"] : List String)) →
        fs.wcsMale ∪ fs.wcsFemale ≠ [] →
        filter_with_controls fs df =
          applyTestedStage fs (applyEquipmentStage fs
            ((applyAgeStage fs (applySexStage fs df)).filter
              fun r => (fs.wcsMale ∪ fs.wcsFemale).contains r.weightClassKg)))
    ∧ ∀ df : List Row,
        filter_with_controls fsU df
          = df.filter fun r => r.weightClassKg == "90" || r.weightClassKg == "63" := by
  constructor
  · intro df fs hg hne
    have hF : fs.gender ≠ ["Female"] := by
      rcases hg with h | h
      · simp [h]
      · intro hc
        have hmem : "Male" ∈ fs.gender := (h "Male").mpr (by simp)
        rw [hc] at hmem
        simp at hmem
    have hM : fs.gender ≠ ["Male"] := by
      rcases hg with h | h
      · simp [h]
      · intro hc
        have hmem : "Female" ∈ fs.gender := (h "Female").mpr (by simp)
        rw [hc] at hmem
        simp at hmem
    unfold filter_with_controls
    rw [applyWcStage_union fs hF hM hne]
  · intro df
    have h1 : filter_with_controls fsU df
        = df.filter fun r => ((["90"] ∪ ["63"] : List String)).contains r.weightClassKg := by
      unfold filter_with_controls
      rw [applySexStage_skip fsU rfl, applyAgeStage_skip fsU rfl,
        applyWcStage_union fsU (by decide) (by decide) (by decide),
        applyEquipmentStage_skip fsU rfl, applyTestedStage_skip fsU (by decide) (by decide)]
      rfl
    rw [h1]
    have h2 : (["90"] ∪ ["63"] : List String) = ["90", "63"] := by decide
    rw [h2]
    apply List.filter_congr
    intro r _
    simp only [List.contains_cons, List.contains_nil, Bool.or_false]

/-- Witness for C1 at the concrete state `fsU` and a three-row table. -/
theorem C1_union_weight_class_policy_witness :
    ((fsU.gender = [] ∨ ∀ x, x ∈ fsU.gender ↔ x ∈ (["Male", "Female"] : List String))
      ∧ fsU.wcsMale ∪ fsU.wcsFemale ≠ [])
    ∧ filter_with_controls fsU [rowM90, rowF63, rowF72] =
        applyTestedStage fsU (applyEquipmentStage fsU
          ((applyAgeStage fsU (applySexStage fsU [rowM90, rowF63, rowF72])).filter
            fun r => (fsU.wcsMale ∪ fsU.wcsFemale).contains r.weightClassKg)) :=
  ⟨⟨Or.inl rfl, by decide⟩,
    C1_union_weight_class_policy.1 [rowM90, rowF63, rowF72] fsU (Or.inl rfl) (by decide)⟩

/-- C4: with only the age-category, equipment, and tested-state dimensions
selected (the sex and weight-class selections empty), the result of
`filter_with_controls` is the intersection of the three single-dimension
results; and the all-empty/default state returns the table unchanged. -/
theorem C4_filter_conjunction :
    (∀ (df : List Row) (fs : FilterState),
        fs.gender = [] → fs.wcsMale = [] → fs.wcsFemale = [] →
        fs.ages ≠ [] → fs.equipment ≠ [] →
        (fs.testedState = "Tested" ∨ fs.testedState = "Untested") →
        filter_with_controls fs df =
          interRows (interRows (filter_with_controls (onlyAges fs.ages) df)
              (filter_with_controls (onlyEquipment fs.equipment) df))
            (filter_with_controls (onlyTested fs.testedState) df))
    ∧ ∀ df : List Row, filter_with_controls defaultFilterState df = df := by
  constructor
  · intro df fs hg hm hf ha he ht
    have hA : filter_with_controls (onlyAges fs.ages) df
        = df.filter fun r => fs.ages.contains r.ageCategory := by
      unfold filter_with_controls
      rw [applySexStage_skip (onlyAges fs.ages) rfl, applyAgeStage_filter (onlyAges fs.ages) ha,
        applyWcStage_skip (onlyAges fs.ages) rfl rfl rfl,
        applyEquipmentStage_skip (onlyAges fs.ages) rfl,
        applyTestedStage_skip (onlyAges fs.ages) all_ne_tested all_ne_untested]
      rfl
    have hE : filter_with_controls (onlyEquipment fs.equipment) df
        = df.filter fun r => fs.equipment.contains r.equipment := by
      unfold filter_with_controls
      rw [applySexStage_skip (onlyEquipment fs.equipment) rfl,
        applyAgeStage_skip (onlyEquipment fs.equipment) rfl,
        applyWcStage_skip (onlyEquipment fs.equipment) rfl rfl rfl,
        applyEquipmentStage_filter (onlyEquipment fs.equipment) he,
        applyTestedStage_skip (onlyEquipment fs.equipment) all_ne_tested all_ne_untested]
      rfl
    have hmemA : ∀ r ∈ df.filter fun r => fs.ages.contains r.ageCategory, r ∈ df :=
      fun r hr => (List.mem_filter.mp hr).1
    rcases ht with ht | ht
    · have hT : filter_with_controls (onlyTested fs.testedState) df
          = df.filter fun r => pyLower r.tested == "tested" := by
        unfold filter_with_controls
        rw [applySexStage_skip (onlyTested fs.testedState) rfl,
          applyAgeStage_skip (onlyTested fs.testedState) rfl,
          applyWcStage_skip (onlyTested fs.testedState) rfl rfl rfl,
          applyEquipmentStage_skip (onlyTested fs.testedState) rfl,
          applyTestedStage_tested (onlyTested fs.testedState) ht]
      rw [hA, hE, hT]
      unfold filter_with_controls
      rw [applySexStage_skip _ hg, applyAgeStage_filter _ ha,
        applyWcStage_skip _ hg hm hf, applyEquipmentStage_filter _ he,
        applyTestedStage_tested _ ht]
      rw [interRows_filter_right df _ _ hmemA]
      rw [interRows_filter_right df _ _
        (fun r hr => hmemA r (List.mem_filter.mp hr).1)]
    · have hT : filter_with_controls (onlyTested fs.testedState) df
          = df.filter fun r => pyLower r.tested == "untested" := by
        unfold filter_with_controls
        rw [applySexStage_skip (onlyTested fs.testedState) rfl,
          applyAgeStage_skip (onlyTested fs.testedState) rfl,
          applyWcStage_skip (onlyTested fs.testedState) rfl rfl rfl,
          applyEquipmentStage_skip (onlyTested fs.testedState) rfl,
          applyTestedStage_untested (onlyTested fs.testedState) ht]
      rw [hA, hE, hT]
      unfold filter_with_controls
      rw [applySexStage_skip _ hg, applyAgeStage_filter _ ha,
        applyWcStage_skip _ hg hm hf, applyEquipmentStage_filter _ he,
        applyTestedStage_untested _ ht]
      rw [interRows_filter_right df _ _ hmemA]
      rw [interRows_filter_right df _ _
        (fun r hr => hmemA r (List.mem_filter.mp hr).1)]
  · intro df
    simp [filter_with_controls, applySexStage, applyAgeStage, applyWcStage,
      applyEquipmentStage, applyTestedStage, defaultFilterState]

/-- Witness for C4 at a concrete two-row table and concrete selections. -/
theorem C4_filter_conjunction_witness :
    ((["24-39"] : List String) ≠ [] ∧ (["Raw"] : List String) ≠ []
      ∧ ("Tested" = "Tested" ∨ "Tested" = "Untested"))
    ∧ filter_with_controls ⟨[], ["24-39"], [], [], ["Raw"], "Tested"⟩ [rowM90, rowF63]
        = interRows (interRows (filter_with_controls (onlyAges ["24-39"]) [rowM90, rowF63])
            (filter_with_controls (onlyEquipment ["Raw"]) [rowM90, rowF63]))
          (filter_with_controls (onlyTested "Tested") [rowM90, rowF63]) :=
  ⟨⟨by decide, by decide, Or.inl rfl⟩,
    C4_filter_conjunction.1 [rowM90, rowF63] ⟨[], ["24-39"], [], [], ["Raw"], "Tested"⟩
      rfl rfl rfl (by decide) (by decide) (Or.inl rfl)⟩

/-- C7 counterexample: the claim says an unrecognized tested-state selector
value is treated as matching nothing (an empty result); with selector
"Both" the code returns the single-row table whole instead. -/
theorem C7_counterexample :
    filter_with_controls fsBogusTested [rowM90] = [rowM90]
    ∧ [rowM90] ≠ ([] : List Row) :=
  ⟨by decide, by decide⟩

/-- C7 (amended): `filter_with_controls` is total and raises nothing; an
unknown sex string in the selected-sexes set matches nothing (a selection of
sexes none of which occur in the table empties the result), while an
unrecognized tested-state selector is a no-op on its dimension (it behaves
exactly like "All"), not "matches nothing". -/
theorem C7_malformed_state_amended :
    (∀ (df : List Row) (fs : FilterState), fs.gender ≠ [] →
        (∀ r ∈ df, r.sex ∉ fs.gender) →
        filter_with_controls fs df = [])
    ∧ ∀ (df : List Row) (fs : FilterState), fs.testedState ≠ "Tested" →
        fs.testedState ≠ "Untested" →
        filter_with_controls fs df
          = filter_with_controls { fs with testedState := "All" } df := by
  constructor
  · intro df fs hg hnone
    have hsex : applySexStage fs df = [] := by
      unfold applySexStage
      rw [if_neg (by simp [hg])]
      refine List.filter_eq_nil_iff.mpr ?_
      intro r hr
      simp only [List.contains, List.elem_eq_mem, decide_eq_true_eq]
      exact hnone r hr
    unfold filter_with_controls
    rw [hsex,
      List.sublist_nil.mp (applyAgeStage_sublist fs []),
      List.sublist_nil.mp (applyWcStage_sublist fs []),
      List.sublist_nil.mp (applyEquipmentStage_sublist fs []),
      List.sublist_nil.mp (applyTestedStage_sublist fs [])]
  · intro df fs h1 h2
    unfold filter_with_controls
    rw [applyTestedStage_skip fs h1 h2,
      applyTestedStage_skip { fs with testedState := "All" } all_ne_tested all_ne_untested]
    rfl

/-- Witness for the amended C7 at concrete states. -/
theorem C7_malformed_state_amended_witness :
    (fsAlienSex.gender ≠ [] ∧ (∀ r ∈ [rowM90], r.sex ∉ fsAlienSex.gender)
      ∧ fsBogusTested.testedState ≠ "Tested" ∧ fsBogusTested.testedState ≠ "Untested")
    ∧ filter_with_controls fsAlienSex [rowM90] = []
    ∧ filter_with_controls fsBogusTested [rowM90]
        = filter_with_controls { fsBogusTested with testedState := "All" } [rowM90] :=
  ⟨⟨by decide, by decide, by decide, by decide⟩,
    C7_malformed_state_amended.1 [rowM90] fsAlienSex (by decide) (by decide),
    C7_malformed_state_amended.2 [rowM90] fsBogusTested (by decide) (by decide)⟩

lemma numeric_sort_key_wc_snd (x : String) : (numeric_sort_key_wc x).2 = x := by
  unfold numeric_sort_key_wc
  cases pyFloat? (removePlus x) <;> rfl

/-- C5 counterexample: on the label "1+2" the code removes the inner plus and
parses 12.0, while the claim's strip-a-trailing-plus rule leaves "1+2"
unparseable, so the two keys disagree. -/
theorem C5_counterexample :
    numeric_sort_key_wc "1+2" ≠ claimKeyWc "1+2"
    ∧ numeric_sort_key_wc "1+2" = (PFloat.fin 12, "1+2")
    ∧ claimKeyWc "1+2" = (PFloat.pinf, "1+2") :=
  ⟨by decide, by decide, by decide⟩

/-- C5 (amended): the key removes EVERY "+" character of the label (not only
a trailing one) and parses the remainder as a Python float; on success the
key is (value, original string), otherwise (+infinity, original string), so
non-numeric labels sort last with lexicographic tie-break among themselves,
and sorting ["90","110+","67.5","SHW"] yields ["67.5","90","110+","SHW"]. -/
theorem C5_sort_key_amended :
    (∀ (s : String) (p : PFloat), pyFloat? (removePlus s) = some p →
        numeric_sort_key_wc s = (p, s))
    ∧ (∀ s : String, pyFloat? (removePlus s) = none →
        numeric_sort_key_wc s = (PFloat.pinf, s))
    ∧ (∀ a b : String, (numeric_sort_key_wc a).1 = PFloat.pinf →
        (numeric_sort_key_wc b).1 = PFloat.pinf →
        wcLE a b = !(pyStrLT b a))
    ∧ (∀ a b : String, (∃ q, (numeric_sort_key_wc a).1 = PFloat.fin q) →
        (numeric_sort_key_wc b).1 = PFloat.pinf →
        keyLT (numeric_sort_key_wc a) (numeric_sort_key_wc b) = true)
    ∧ sortWC ["90", "110+", "67.5", "SHW"] = ["67.5", "90", "110+", "SHW"] := by
  refine ⟨?_, ?_, ?_, ?_, by decide⟩
  · intro s p h
    unfold numeric_sort_key_wc
    rw [h]
  · intro s h
    unfold numeric_sort_key_wc
    rw [h]
  · intro a b ha hb
    have ha2 : numeric_sort_key_wc a = (PFloat.pinf, a) :=
      Prod.ext_iff.mpr ⟨ha, numeric_sort_key_wc_snd a⟩
    have hb2 : numeric_sort_key_wc b = (PFloat.pinf, b) :=
      Prod.ext_iff.mpr ⟨hb, numeric_sort_key_wc_snd b⟩
    rw [wcLE, ha2, hb2]
    simp [keyLT, pfLT, pfEQ]
  · intro a b ha hb
    obtain ⟨q, ha⟩ := ha
    have ha2 : numeric_sort_key_wc a = (PFloat.fin q, a) :=
      Prod.ext_iff.mpr ⟨ha, numeric_sort_key_wc_snd a⟩
    have hb2 : numeric_sort_key_wc b = (PFloat.pinf, b) :=
      Prod.ext_iff.mpr ⟨hb, numeric_sort_key_wc_snd b⟩
    rw [ha2, hb2]
    simp [keyLT, pfLT]

/-- Witness for the amended C5 at concrete labels. -/
theorem C5_sort_key_amended_witness :
    (pyFloat? (removePlus "110+") = some (PFloat.fin 110)
      ∧ numeric_sort_key_wc "110+" = (PFloat.fin 110, "110+"))
    ∧ (pyFloat? (removePlus "SHW") = none
      ∧ numeric_sort_key_wc "SHW" = (PFloat.pinf, "SHW"))
    ∧ wcLE "SHW" "ZZZ" = !(pyStrLT "ZZZ" "SHW") :=
  ⟨⟨by decide, C5_sort_key_amended.1 "110+" (PFloat.fin 110) (by decide)⟩,
    ⟨by decide, C5_sort_key_amended.2.1 "SHW" (by decide)⟩,
    C5_sort_key_amended.2.2.1 "SHW" "ZZZ" (by decide) (by decide)⟩

lemma charListLT_irrefl : ∀ l : List Char, charListLT l l = false
  | [] => rfl
  | x :: xs => by simp [charListLT, lt_irrefl, charListLT_irrefl xs]

lemma charListLT_trans :
    ∀ a b c : List Char, charListLT a b = true → charListLT b c = true → charListLT a c = true
  | [], b, c, h1, h2 => by
    cases b with
    | nil => simp [charListLT] at h1
    | cons y ys =>
      cases c with
      | nil => simp [charListLT] at h2
      | cons z zs => rfl
  | _ :: _, [], _, h1, _ => by simp [charListLT] at h1
  | _ :: _, _ :: _, [], _, h2 => by simp [charListLT] at h2
  | x :: xs, y :: ys, z :: zs, h1, h2 => by
    simp only [charListLT] at h1 h2 ⊢
    by_cases hxy : x < y
    · by_cases hyz : y < z
      · rw [if_pos (lt_trans hxy hyz)]
      · rw [if_neg hyz] at h2
        by_cases hyz2 : y = z
        · subst hyz2
          rw [if_pos hxy]
        · rw [if_neg hyz2] at h2
          exact absurd h2 (by simp)
    · rw [if_neg hxy] at h1
      by_cases hxy2 : x = y
      · subst hxy2
        rw [if_pos rfl] at h1
        by_cases hyz : x < z
        · rw [if_pos hyz]
        · rw [if_neg hyz] at h2 ⊢
          by_cases hyz2 : x = z
          · rw [if_pos hyz2] at h2 ⊢
            exact charListLT_trans xs ys zs h1 h2
          · rw [if_neg hyz2] at h2
            exact absurd h2 (by simp)
      · rw [if_neg hxy2] at h1
        exact absurd h1 (by simp)

lemma charListLT_trichotomy (a b : List Char) :
    charListLT a b = true ∨ a = b ∨ charListLT b a = true := by
  induction a generalizing b with
  | nil =>
    cases b with
    | nil => exact Or.inr (Or.inl rfl)
    | cons y ys => exact Or.inl rfl
  | cons x xs ih =>
    cases b with
    | nil => exact Or.inr (Or.inr rfl)
    | cons y ys =>
      rcases lt_trichotomy x y with h | h | h
      · left
        simp [charListLT, h]
      · subst h
        rcases ih ys with h2 | h2 | h2
        · left
          simp [charListLT, lt_irrefl, h2]
        · right
          left
          rw [h2]
        · right
          right
          simp [charListLT, lt_irrefl, h2]
      · right
        right
        simp [charListLT, h]

lemma pyStrLT_irrefl (a : String) : pyStrLT a a = false :=
  charListLT_irrefl a.data

lemma pyStrLT_trans (a b c : String) (h1 : pyStrLT a b = true) (h2 : pyStrLT b c = true) :
    pyStrLT a c = true :=
  charListLT_trans a.data b.data c.data h1 h2

lemma pyStrLT_trichotomy (a b : String) :
    pyStrLT a b = true ∨ a = b ∨ pyStrLT b a = true := by
  obtain ⟨da⟩ := a
  obtain ⟨db⟩ := b
  rcases charListLT_trichotomy da db with h | h | h
  · exact Or.inl h
  · exact Or.inr (Or.inl (by rw [h]))
  · exact Or.inr (Or.inr h)

lemma strListLE_refl : ∀ l : List String, strListLE l l = true
  | [] => rfl
  | x :: xs => by
    simp only [strListLE, strListLE_refl xs]
    split
    · rfl
    · simp

lemma strListLE_total : ∀ a b : List String, strListLE a b = true ∨ strListLE b a = true
  | [], _ => Or.inl rfl
  | _ :: _, [] => Or.inr rfl
  | a :: as, b :: bs => by
    rcases pyStrLT_trichotomy a b with h | h | h
    · left
      simp [strListLE, h]
    · subst h
      rcases strListLE_total as bs with h2 | h2
      · left
        simp only [strListLE, h2]
        split
        · rfl
        · simp
      · right
        simp only [strListLE, h2]
        split
        · rfl
        · simp
    · right
      simp [strListLE, h]

lemma strListLE_trans :
    ∀ a b c : List String, strListLE a b = true → strListLE b c = true → strListLE a c = true
  | [], _, _, _, _ => rfl
  | _ :: _, [], _, h1, _ => by simp [strListLE] at h1
  | _ :: _, _ :: _, [], _, h2 => by simp [strListLE] at h2
  | x :: xs, y :: ys, z :: zs, h1, h2 => by
    simp only [strListLE] at h1 h2 ⊢
    by_cases hxy : pyStrLT x y = true
    · by_cases hyz : pyStrLT y z = true
      · rw [if_pos (pyStrLT_trans x y z hxy hyz)]
      · rw [if_neg hyz] at h2
        by_cases hyz2 : y = z
        · subst hyz2
          rw [if_pos hxy]
        · rw [if_neg hyz2] at h2
          exact absurd h2 (by simp)
    · rw [if_neg hxy] at h1
      by_cases hxy2 : x = y
      · subst hxy2
        rw [if_pos rfl] at h1
        by_cases hyz : pyStrLT x z = true
        · rw [if_pos hyz]
        · rw [if_neg hyz] at h2 ⊢
          by_cases hyz2 : x = z
          · rw [if_pos hyz2] at h2 ⊢
            exact strListLE_trans xs ys zs h1 h2
          · rw [if_neg hyz2] at h2
            exact absurd h2 (by simp)
      · rw [if_neg hxy2] at h1
        exact absurd h1 (by simp)

/-- C9: each displayed/exported segment selects the event subset
(`Event == "SBD"` for full power, `Event` in {"B","D"} for single lifts),
applies filter resolution, then stable-sorts by the six keys (Sex, Age
Category, Event, Tested, Equipment, WeightClassKg): the sorted view is a
permutation of the filtered table, pairwise ordered by the key, and rows
equal on all six keys keep their pre-sort relative order; the export is
exactly the seven display columns in order, header first. -/
theorem C9_view_sort_export :
    (∀ (data : List Row) (fs : FilterState),
        tab_sbd data fs
          = sort_values (filter_with_controls fs (data.filter fun r => r.event == "SBD")))
    ∧ (∀ (data : List Row) (fs : FilterState),
        tab_singles data fs
          = sort_values (filter_with_controls fs
              (data.filter fun r => r.event == "B" || r.event == "D")))
    ∧ (∀ df : List Row, (sort_values df).Perm df)
    ∧ (∀ df : List Row, (sort_values df).Pairwise fun a b => rowLE a b = true)
    ∧ (∀ (df : List Row) (k : List String),
        (sort_values df).filter (fun r => decide (sortKeyOf r = k))
          = df.filter fun r => decide (sortKeyOf r = k))
    ∧ ∀ df : List Row, show_table_csv df = exportHeader :: (sort_values df).map exportRow := by
  refine ⟨fun data fs => rfl, fun data fs => rfl, ?_, ?_, ?_, fun df => rfl⟩
  · intro df
    exact List.perm_insertionSort _ df
  · intro df
    haveI : IsTotal Row fun a b => rowLE a b = true := ⟨fun a b => strListLE_total _ _⟩
    haveI : IsTrans Row fun a b => rowLE a b = true := ⟨fun a b c => strListLE_trans _ _ _⟩
    exact List.sorted_insertionSort _ df
  · intro df k
    have hpk : ∀ r : Row, decide (sortKeyOf r = k) = true → sortKeyOf r = k :=
      fun r hr => of_decide_eq_true hr
    have hpair : (df.filter fun r => decide (sortKeyOf r = k)).Pairwise
        fun a b => rowLE a b = true := by
      refine List.pairwise_of_forall_mem_list ?_
      intro a ha b hb
      have hka := hpk a (List.mem_filter.mp ha).2
      have hkb := hpk b (List.mem_filter.mp hb).2
      unfold rowLE
      rw [hka, hkb]
      exact strListLE_refl k
    have hsub : List.Sublist (df.filter fun r => decide (sortKeyOf r = k))
        (List.insertionSort (fun a b => rowLE a b = true) df) :=
      List.sublist_insertionSort hpair (List.filter_sublist df)
    have hself : ((df.filter fun r => decide (sortKeyOf r = k)).filter
        fun r => decide (sortKeyOf r = k)) = df.filter fun r => decide (sortKeyOf r = k) :=
      List.filter_eq_self.mpr fun a ha => (List.mem_filter.mp ha).2
    have hsub2 : List.Sublist (df.filter fun r => decide (sortKeyOf r = k))
        ((sort_values df).filter fun r => decide (sortKeyOf r = k)) := by
      rw [← hself]
      exact List.Sublist.filter _ hsub
    have hlen : (df.filter fun r => decide (sortKeyOf r = k)).length
        = ((sort_values df).filter fun r => decide (sortKeyOf r = k)).length :=
      (((List.perm_insertionSort (fun a b => rowLE a b = true) df).filter
        fun r => decide (sortKeyOf r = k)).length_eq).symm
    exact (List.Sublist.eq_of_length hsub2 hlen).symm

lemma countP_flatMap {α β : Type} (l : List α) (f : α → List β) (p : β → Bool) :
    (l.flatMap f).countP p = (l.map fun a => (f a).countP p).sum := by
  induction l with
  | nil => rfl
  | cons x xs ih => simp [List.flatMap_cons, List.countP_append, ih]

lemma countP_eq_sum_map {α : Type} (l : List α) (p : α → Bool) :
    l.countP p = (l.map fun a => if p a then 1 else 0).sum := by
  induction l with
  | nil => rfl
  | cons x xs ih =>
    rw [List.countP_cons, ih, List.map_cons, List.sum_cons]
    omega

lemma sum_map_add {α : Type} (l : List α) (f g : α → ℕ) :
    (l.map fun x => f x + g x).sum = (l.map f).sum + (l.map g).sum := by
  induction l with
  | nil => rfl
  | cons x xs ih =>
    simp only [List.map_cons, List.sum_cons, ih]
    omega

lemma sum_swap_list {α β : Type} (l₁ : List α) (l₂ : List β) (f : α → β → ℕ) :
    (l₁.map fun a => (l₂.map fun b => f a b).sum).sum
      = (l₂.map fun b => (l₁.map fun a => f a b).sum).sum := by
  induction l₁ with
  | nil => simp
  | cons x xs ih =>
    simp only [List.map_cons, List.sum_cons]
    rw [ih, ← sum_map_add]

lemma mem_dedupKeepFirst (c : String) :
    ∀ (seen l : List String), c ∈ dedupKeepFirst seen l ↔ c ∈ l ∧ c ∉ seen := by
  intro seen l
  induction l generalizing seen with
  | nil => simp [dedupKeepFirst]
  | cons x xs ih =>
    unfold dedupKeepFirst
    by_cases hx : x ∈ seen
    · rw [if_pos hx, ih]
      constructor
      · rintro ⟨h1, h2⟩
        exact ⟨List.mem_cons_of_mem _ h1, h2⟩
      · rintro ⟨h1, h2⟩
        rcases List.mem_cons.mp h1 with rfl | h1
        · exact absurd hx h2
        · exact ⟨h1, h2⟩
    · rw [if_neg hx]
      constructor
      · intro h
        rcases List.mem_cons.mp h with rfl | h
        · exact ⟨List.mem_cons_self _ _, hx⟩
        · obtain ⟨h1, h2⟩ := (ih (x :: seen)).mp h
          exact ⟨List.mem_cons_of_mem _ h1,
            fun hc => h2 (List.mem_cons_of_mem _ hc)⟩
      · rintro ⟨h1, h2⟩
        rcases List.mem_cons.mp h1 with rfl | h1
        · exact List.mem_cons_self _ _
        · by_cases hcx : c = x
          · subst hcx
            exact List.mem_cons_self _ _
          · refine List.mem_cons_of_mem _ ((ih (x :: seen)).mpr ⟨h1, ?_⟩)
            intro hc
            rcases List.mem_cons.mp hc with h | h
            · exact hcx h
            · exact h2 h

lemma nodup_dedupKeepFirst : ∀ (seen l : List String), (dedupKeepFirst seen l).Nodup := by
  intro seen l
  induction l generalizing seen with
  | nil => simp [dedupKeepFirst]
  | cons x xs ih =>
    unfold dedupKeepFirst
    by_cases hx : x ∈ seen
    · rw [if_pos hx]
      exact ih seen
    · rw [if_neg hx]
      refine List.nodup_cons.mpr ⟨?_, ih (x :: seen)⟩
      intro hmem
      exact ((mem_dedupKeepFirst x (x :: seen) xs).mp hmem).2 (List.mem_cons_self _ _)

lemma nodup_allWeightCols (wb : List Sheet) : (allWeightCols wb).Nodup :=
  nodup_dedupKeepFirst [] _

lemma mem_allWeightCols {wb : List Sheet} {s : Sheet} {k : String}
    (hs : s ∈ wb) (hk : k ∈ s.weightCols) : k ∈ allWeightCols wb :=
  (mem_dedupKeepFirst k [] _).mpr
    ⟨List.mem_flatMap.mpr ⟨s, hs, hk⟩, by simp⟩

lemma countP_lookup_cells :
    ∀ (ps : List (String × Option String)) (cols : List String),
      cols.Nodup → (ps.map Prod.fst).Nodup → (∀ k ∈ ps.map Prod.fst, k ∈ cols) →
      (cols.countP fun c => ((List.lookup c ps).join).isSome)
        = ps.countP fun kv => kv.2.isSome := by
  intro ps
  induction ps with
  | nil =>
    intro cols _ _ _
    simp [List.lookup]
  | cons kv rest ih =>
    intro cols hcols hkeys hsub
    obtain ⟨k, v⟩ := kv
    have hk : k ∈ cols := hsub k (by simp)
    have hperm : cols.Perm (k :: cols.erase k) := List.perm_cons_erase hk
    rw [hperm.countP_eq, List.countP_cons]
    have hkeys1 : (k :: rest.map Prod.fst).Nodup := hkeys
    have hkeys2 := List.nodup_cons.mp hkeys1
    have hlk : (List.lookup k ((k, v) :: rest)).join = v := by
      simp [List.lookup]
    have hcongr : ((cols.erase k).countP fun c => ((List.lookup c ((k, v) :: rest)).join).isSome)
        = (cols.erase k).countP fun c => ((List.lookup c rest).join).isSome := by
      apply List.countP_congr
      intro c hc
      have hcne : c ≠ k := (hcols.mem_erase_iff.mp hc).1
      have hbeq : (c == k) = false := beq_eq_false_iff_ne.mpr hcne
      rw [List.lookup, hbeq]
    have hih : ((cols.erase k).countP fun c => ((List.lookup c rest).join).isSome)
        = rest.countP fun kv => kv.2.isSome := by
      refine ih (cols.erase k) (hcols.erase k) hkeys2.2 ?_
      intro k2 hk2
      refine hcols.mem_erase_iff.mpr ⟨?_, hsub k2 (List.mem_cons_of_mem _ hk2)⟩
      intro hkk
      exact hkeys2.1 (hkk ▸ hk2)
    rw [hcongr, hih, hlk, List.countP_cons]

/-- C3: for every workbook whose sheets have well-formed rows (cell lists
aligned with the sheet's duplicate-free weight-class columns), the tidy
output of the reshape has exactly one row per (wide row, weight-class
column) pair with a non-null cell, summed over all sheets, and every tidy
row carries a total. -/
theorem C3_row_count_law (wb : List Sheet)
    (hnodup : ∀ s ∈ wb, s.weightCols.Nodup)
    (hlen : ∀ s ∈ wb, ∀ r ∈ s.rows, r.cells.length = s.weightCols.length) :
    (loadTidyWorkbook wb).length
      = (wb.map fun s => (s.rows.map fun r => r.cells.countP Option.isSome).sum).sum
    ∧ ∀ row ∈ loadTidyWorkbook wb, row.qualifyingTotalKg.isSome := by
  constructor
  · unfold loadTidyWorkbook meltWorkbook
    rw [List.length_map, ← List.countP_eq_length_filter]
    simp only [List.countP_map, countP_flatMap]
    rw [sum_swap_list]
    refine congrArg List.sum (List.map_congr_left ?_)
    intro s hs
    show ((allWeightCols wb).map fun c =>
        s.rows.countP fun r => (cellAt s r c).isSome).sum
      = (s.rows.map fun r => r.cells.countP Option.isSome).sum
    have key : ∀ r ∈ s.rows,
        ((allWeightCols wb).countP fun c => (cellAt s r c).isSome)
          = r.cells.countP Option.isSome := by
      intro r hr
      have hkeys : (s.weightCols.zip r.cells).map Prod.fst = s.weightCols :=
        List.map_fst_zip _ _ (le_of_eq (hlen s hs r hr).symm)
      have hsnd : (s.weightCols.zip r.cells).map Prod.snd = r.cells :=
        List.map_snd_zip _ _ (le_of_eq (hlen s hs r hr))
      have hmain := countP_lookup_cells (s.weightCols.zip r.cells) (allWeightCols wb)
        (nodup_allWeightCols wb)
        (by rw [hkeys]; exact hnodup s hs)
        (by rw [hkeys]; intro k hk; exact mem_allWeightCols hs hk)
      calc ((allWeightCols wb).countP fun c => (cellAt s r c).isSome)
          = (s.weightCols.zip r.cells).countP fun kv => kv.2.isSome := hmain
        _ = r.cells.countP Option.isSome := by
            conv_rhs => rw [← hsnd, List.countP_map]
            rfl
    have h2 : ((allWeightCols wb).map fun c =>
          s.rows.countP fun r => (cellAt s r c).isSome)
        = (allWeightCols wb).map fun c =>
            (s.rows.map fun r => if (cellAt s r c).isSome then 1 else 0).sum :=
      List.map_congr_left fun c _ => countP_eq_sum_map _ _
    rw [h2, sum_swap_list]
    refine congrArg List.sum (List.map_congr_left ?_)
    intro r hr
    rw [← countP_eq_sum_map]
    exact key r hr
  · intro row hrow
    unfold loadTidyWorkbook at hrow
    obtain ⟨r1, hr1, hrow⟩ := List.mem_map.mp hrow
    have h2 := (List.mem_filter.mp hr1).2
    subst hrow
    exact h2

/-- Witness for C3 on a concrete two-sheet workbook with a null cell and a
column missing from the second sheet. -/
theorem C3_row_count_law_witness :
    ((∀ s ∈ [sheetW, sheetV], s.weightCols.Nodup)
      ∧ ∀ s ∈ [sheetW, sheetV], ∀ r ∈ s.rows, r.cells.length = s.weightCols.length)
    ∧ (loadTidyWorkbook [sheetW, sheetV]).length
        = ([sheetW, sheetV].map fun s =>
            (s.rows.map fun r => r.cells.countP Option.isSome).sum).sum
    ∧ ∀ row ∈ loadTidyWorkbook [sheetW, sheetV], row.qualifyingTotalKg.isSome :=
  ⟨⟨by decide, by decide⟩,
    (C3_row_count_law [sheetW, sheetV] (by decide) (by decide)).1,
    (C3_row_count_law [sheetW, sheetV] (by decide) (by decide)).2⟩

end Qualifying
